import Mathlib

/-!
Shallow embedding of the `code-optimizer` analysis engine, as implemented by
`simulateRustAnalysis` in the VS Code extension source (the only analysis code
in the repository).  Strings stay strings, the confidence scores become exact
rationals, and the per-line rule matching is translated clause by clause from
the JavaScript.
-/

namespace CodeOptimizer

/-- Embedding of JavaScript `text.split('\n')` on character lists: `cur`
accumulates the current line in reverse. JS semantics: the empty string
splits to `[""]`, a trailing separator yields a trailing empty field. -/
def jsSplitNewlineAux (cur : List Char) : List Char → List String
  | [] => [String.mk cur.reverse]
  | c :: cs =>
    if c = '\n' then String.mk cur.reverse :: jsSplitNewlineAux [] cs
    else jsSplitNewlineAux (c :: cur) cs

/-- JavaScript `text.split('\n')`. -/
def jsSplitNewline (s : String) : List String :=
  jsSplitNewlineAux [] s.toList

/-- JavaScript `line.trim()`: strip leading and trailing whitespace. -/
def jsTrim (s : String) : String :=
  String.mk
    (((s.toList.dropWhile Char.isWhitespace).reverse.dropWhile
        Char.isWhitespace).reverse)

/-- JS `pat.isPrefixOf` style check on character lists, used to build
substring containment. -/
def hasInfix (pat : List Char) : List Char → Bool
  | [] => pat.isEmpty
  | c :: cs => pat.isPrefixOf (c :: cs) || hasInfix pat cs

/-- Embedding of JavaScript `line.includes(pat)`: substring containment. -/
def jsIncludes (line pat : String) : Bool :=
  hasInfix pat.toList line.toList

/-- Embedding of JavaScript `line.replace(pat, repl)` for a plain-string
pattern: replaces only the first occurrence, on character lists. -/
def replaceFirstAux (pat repl : List Char) : List Char → List Char
  | [] => []
  | c :: cs =>
    if pat.isPrefixOf (c :: cs) then repl ++ (c :: cs).drop pat.length
    else c :: replaceFirstAux pat repl cs

/-- JavaScript `s.replace(pat, repl)` (first occurrence only). -/
def jsReplace (s pat repl : String) : String :=
  String.mk (replaceFirstAux pat.toList repl.toList s.toList)

/-- The literal `0.8` as an exact rational (4/5), written in constructor form
so that it is a kernel-reducible numeral. -/
def conf08 : ℚ := ⟨4, 5, by norm_num, by norm_num⟩

/-- The literal `0.9` as an exact rational (9/10). -/
def conf09 : ℚ := ⟨9, 10, by norm_num, by norm_num⟩

/-- The literal `0.7` as an exact rational (7/10). -/
def conf07 : ℚ := ⟨7, 10, by norm_num, by norm_num⟩

/-- The literal `0.6` (the `config.get` default threshold) as an exact
rational (3/5). -/
def conf06 : ℚ := ⟨3, 5, by norm_num, by norm_num⟩

/-- The shape pushed into `optimizations` by `simulateRustAnalysis`
(the extension's `Optimization` typedef). Confidence is an exact rational. -/
structure Optimization where
  rule_name : String
  language : String
  line_number : Nat
  original_code : String
  suggested_code : String
  explanation : String
  severity : String
  confidence : ℚ
deriving DecidableEq, Repr

/-- A VS Code text document as the analysis sees it: a language id string and
the full text (`document.languageId`, `document.getText()`). -/
structure Document where
  languageId : String
  text : String
deriving DecidableEq, Repr

/-- The `codeOptimizer` workspace configuration consulted by the extension:
`minimumConfidence` (absent means the `config.get` default 0.6 applies) and
the `enabledRules` map (rule id to enabled flag, absent means no override). -/
structure Configuration where
  minimumConfidence : Option ℚ
  enabledRules : String → Option Bool

/-- The default configuration: no setting present, so `config.get` falls back
to its defaults. -/
def defaultConfiguration : Configuration :=
  { minimumConfidence := none, enabledRules := fun _ => none }

/-- Function `isSupported` from the extension source. -/
def isSupported (languageId : String) : Bool :=
  ["javascript", "typescript", "python", "rust"].contains languageId

/-- The `use-const` optimization record pushed for a matching line. -/
def useConstOpt (line : String) (index : Nat) : Optimization :=
  { rule_name := "use-const"
    language := "JavaScript"
    line_number := index + 1
    original_code := jsTrim line
    suggested_code := jsReplace line "let " "const "
    explanation := "Use \u0027const\u0027 for variables that never change"
    severity := "Info"
    confidence := conf08 }

/-- The `no-console` optimization record pushed for a matching line. -/
def noConsoleOpt (line : String) (index : Nat) : Optimization :=
  { rule_name := "no-console"
    language := "JavaScript"
    line_number := index + 1
    original_code := jsTrim line
    suggested_code := jsReplace line "console.log(" "// console.log("
    explanation := "Remove console.log statements in production code"
    severity := "Warning"
    confidence := conf09 }

/-- The `use-f-strings` optimization record pushed for a matching line. -/
def useFStringsOpt (line : String) (index : Nat) : Optimization :=
  { rule_name := "use-f-strings"
    language := "Python"
    line_number := index + 1
    original_code := jsTrim line
    suggested_code := jsReplace line ".format(" "f\""
    explanation := "Use f-strings instead of .format() for better performance"
    severity := "Info"
    confidence := conf07 }

/-- The `no-print-debug` optimization record pushed for a matching line. -/
def noPrintDebugOpt (line : String) (index : Nat) : Optimization :=
  { rule_name := "no-print-debug"
    language := "Python"
    line_number := index + 1
    original_code := jsTrim line
    suggested_code := jsReplace line "print(" "# print("
    explanation := "Remove print statements in production code"
    severity := "Warning"
    confidence := conf08 }

/-- The body of the `lines.forEach((line, index) => ...)` callback in
`simulateRustAnalysis`: the optimizations pushed for one line, in push order. -/
def lineOptimizations (languageId line : String) (index : Nat) :
    List Optimization :=
  (if languageId == "javascript" || languageId == "typescript" then
    (if jsIncludes line "let " && jsIncludes line "=" &&
        !(jsIncludes line "let i") then
      [useConstOpt line index]
    else []) ++
    (if jsIncludes line "console.log(" then [noConsoleOpt line index] else [])
  else []) ++
  (if languageId == "python" then
    (if jsIncludes line ".format(" then [useFStringsOpt line index] else []) ++
    (if jsIncludes line "print(" then [noPrintDebugOpt line index] else [])
  else [])

/-- The `forEach` loop over all lines, accumulating pushes in order; `index`
starts at 0 for the first line. -/
def collectOptimizations (languageId : String) :
    List String → Nat → List Optimization
  | [], _ => []
  | line :: rest, index =>
    lineOptimizations languageId line index ++
      collectOptimizations languageId rest (index + 1)

/-- Function `simulateRustAnalysis` from the extension source: read the
`minimumConfidence` setting (default 0.6), split the document text on a
newline, run the per-line matching, and filter by
`opt.confidence >= minConfidence`. -/
def simulateRustAnalysis (document : Document) (config : Configuration) :
    List Optimization :=
  let minConfidence := config.minimumConfidence.getD conf06
  let lines := jsSplitNewline document.text
  (collectOptimizations document.languageId lines 0).filter
    (fun opt => minConfidence ≤ opt.confidence)

/-- Registration order of the built-in rules inside one language's rule set:
the source checks `use-const` before `no-console`, and `use-f-strings` before
`no-print-debug`, on every line. -/
def ruleRegistrationIndex : String → Nat
  | "no-console" => 1
  | "no-print-debug" => 1
  | _ => 0

/-- The strict (line number, registration order) ordering the spec promises
for the returned sequence. -/
def suggestionOrder (a b : Optimization) : Prop :=
  a.line_number < b.line_number ∨
    (a.line_number = b.line_number ∧
      ruleRegistrationIndex a.rule_name < ruleRegistrationIndex b.rule_name)

/-- Clamping a threshold into the unit interval, as the spec describes for
out-of-range configuration values. -/
def clampUnit (q : ℚ) : ℚ :=
  max 0 (min 1 q)

/-! ### Numeral bridge: the constructor-form rationals are the decimal
literals of the source. -/

lemma conf08_eq : conf08 = 0.8 := by
  have h := Rat.num_div_den conf08
  have hn : conf08.num = 4 := rfl
  have hd : conf08.den = 5 := rfl
  rw [hn, hd] at h
  norm_num at h ⊢
  exact h.symm

lemma conf09_eq : conf09 = 0.9 := by
  have h := Rat.num_div_den conf09
  have hn : conf09.num = 9 := rfl
  have hd : conf09.den = 10 := rfl
  rw [hn, hd] at h
  norm_num at h ⊢
  exact h.symm

lemma conf07_eq : conf07 = 0.7 := by
  have h := Rat.num_div_den conf07
  have hn : conf07.num = 7 := rfl
  have hd : conf07.den = 10 := rfl
  rw [hn, hd] at h
  norm_num at h ⊢
  exact h.symm

lemma conf06_eq : conf06 = 0.6 := by
  have h := Rat.num_div_den conf06
  have hn : conf06.num = 3 := rfl
  have hd : conf06.den = 5 := rfl
  rw [hn, hd] at h
  norm_num at h ⊢
  exact h.symm

/-! ### Structure of the per-line matcher output -/

/-- Every optimization pushed for a line is one of the four rule records,
gated by the document language. -/
lemma mem_lineOptimizations_cases (lang line : String) (idx : Nat)
    (opt : Optimization) (h : opt ∈ lineOptimizations lang line idx) :
    ((lang = "javascript" ∨ lang = "typescript") ∧
        (opt = useConstOpt line idx ∨ opt = noConsoleOpt line idx)) ∨
      (lang = "python" ∧
        (opt = useFStringsOpt line idx ∨ opt = noPrintDebugOpt line idx)) := by
  unfold lineOptimizations at h
  split_ifs at h <;> simp_all

/-- The line number of any per-line match is `index + 1`. -/
lemma line_number_of_mem_lineOptimizations (lang line : String) (idx : Nat)
    (opt : Optimization) (h : opt ∈ lineOptimizations lang line idx) :
    opt.line_number = idx + 1 := by
  rcases mem_lineOptimizations_cases lang line idx opt h with ⟨_, h | h⟩ | ⟨_, h | h⟩ <;>
    subst h <;> rfl

/-- Membership in the line loop: an optimization is collected iff some line at
offset `k` from the loop start produced it. -/
lemma mem_collectOptimizations (lang : String) (lines : List String)
    (start : Nat) (opt : Optimization) :
    opt ∈ collectOptimizations lang lines start ↔
      ∃ k l, lines[k]? = some l ∧
        opt ∈ lineOptimizations lang l (start + k) := by
  induction lines generalizing start with
  | nil => simp [collectOptimizations]
  | cons line rest ih =>
    unfold collectOptimizations
    rw [List.mem_append, ih (start + 1)]
    constructor
    · rintro (h | ⟨k, l, hl, hm⟩)
      · exact ⟨0, line, by simp, by simpa using h⟩
      · exact ⟨k + 1, l, by simpa using hl, by
          have : start + 1 + k = start + (k + 1) := by omega
          rwa [this] at hm⟩
    · rintro ⟨k, l, hl, hm⟩
      match k with
      | 0 =>
        simp only [List.getElem?_cons_zero, Option.some.injEq] at hl
        subst hl
        exact Or.inl (by simpa using hm)
      | k + 1 =>
        refine Or.inr ⟨k, l, by simpa using hl, ?_⟩
        have : start + (k + 1) = start + 1 + k := by omega
        rwa [this] at hm

/-- The trimmed source line is recorded as `original_code`. -/
lemma original_code_of_mem_lineOptimizations (lang line : String) (idx : Nat)
    (opt : Optimization) (h : opt ∈ lineOptimizations lang line idx) :
    opt.original_code = jsTrim line := by
  rcases mem_lineOptimizations_cases lang line idx opt h with ⟨_, h | h⟩ | ⟨_, h | h⟩ <;>
    subst h <;> rfl

/-- Every pushed confidence is one of the three literal scores. -/
lemma confidence_of_mem_lineOptimizations (lang line : String) (idx : Nat)
    (opt : Optimization) (h : opt ∈ lineOptimizations lang line idx) :
    opt.confidence = conf07 ∨ opt.confidence = conf08 ∨
      opt.confidence = conf09 := by
  rcases mem_lineOptimizations_cases lang line idx opt h with ⟨_, h | h⟩ | ⟨_, h | h⟩ <;>
    subst h <;> simp [useConstOpt, noConsoleOpt, useFStringsOpt, noPrintDebugOpt]

/-- A collected match with rule id `use-const` is exactly the `use-const`
record, and the line satisfied the three substring conditions of the source. -/
lemma useConst_cond_of_mem (lang line : String) (idx : Nat)
    (opt : Optimization) (h : opt ∈ lineOptimizations lang line idx)
    (hr : opt.rule_name = "use-const") :
    opt = useConstOpt line idx ∧ jsIncludes line "let " = true ∧
      jsIncludes line "=" = true ∧ jsIncludes line "let i" = false := by
  have hopt : opt = useConstOpt line idx := by
    rcases mem_lineOptimizations_cases lang line idx opt h with
      ⟨_, h' | h'⟩ | ⟨_, h' | h'⟩
    · exact h'
    · subst h'; exact absurd hr (by simp [noConsoleOpt])
    · subst h'; exact absurd hr (by simp [useFStringsOpt])
    · subst h'; exact absurd hr (by simp [noPrintDebugOpt])
  subst hopt
  refine ⟨rfl, ?_⟩
  unfold lineOptimizations at h
  split_ifs at h with h1 h2 h3 h4 h5 h6
  all_goals first
    | (simp only [Bool.and_eq_true, Bool.not_eq_true'] at h2
       exact ⟨h2.1.1, h2.1.2, h2.2⟩)
    | (exfalso
       simp [useConstOpt, noConsoleOpt, useFStringsOpt, noPrintDebugOpt] at h)

/-- Conversely, a JavaScript or TypeScript line satisfying the three substring
conditions yields the `use-const` record. -/
lemma useConst_mem_of_cond (lang line : String) (idx : Nat)
    (hlang : (lang == "javascript" || lang == "typescript") = true)
    (h1 : jsIncludes line "let " = true) (h2 : jsIncludes line "=" = true)
    (h3 : jsIncludes line "let i" = false) :
    useConstOpt line idx ∈ lineOptimizations lang line idx := by
  unfold lineOptimizations
  simp [hlang, h1, h2, h3]

/-- Membership in the final output: collected by the loop and over the
threshold. -/
lemma mem_simulateRustAnalysis (doc : Document) (cfg : Configuration)
    (opt : Optimization) :
    opt ∈ simulateRustAnalysis doc cfg ↔
      opt ∈ collectOptimizations doc.languageId (jsSplitNewline doc.text) 0 ∧
        cfg.minimumConfidence.getD conf06 ≤ opt.confidence := by
  simp [simulateRustAnalysis, List.mem_filter]

lemma ruleRegistrationIndex_useConst :
    ruleRegistrationIndex "use-const" = 0 := rfl

lemma ruleRegistrationIndex_noConsole :
    ruleRegistrationIndex "no-console" = 1 := rfl

/-- Within one line, `use-const` precedes `no-console` in the declared order. -/
lemma suggestionOrder_uc_nc (line : String) (idx : Nat) :
    suggestionOrder (useConstOpt line idx) (noConsoleOpt line idx) :=
  Or.inr ⟨rfl, (by decide :
    ruleRegistrationIndex "use-const" < ruleRegistrationIndex "no-console")⟩

/-- Within one line, `use-f-strings` precedes `no-print-debug`. -/
lemma suggestionOrder_fs_pd (line : String) (idx : Nat) :
    suggestionOrder (useFStringsOpt line idx) (noPrintDebugOpt line idx) :=
  Or.inr ⟨rfl, (by decide :
    ruleRegistrationIndex "use-f-strings" < ruleRegistrationIndex "no-print-debug")⟩

/-- One line's pushes are already in the declared rule order. -/
lemma pairwise_lineOptimizations (lang line : String) (idx : Nat) :
    (lineOptimizations lang line idx).Pairwise suggestionOrder := by
  unfold lineOptimizations
  split_ifs <;>
    simp_all [List.pairwise_append, suggestionOrder_uc_nc, suggestionOrder_fs_pd]

/-- The whole collected sequence is strictly ordered by
(line number, registration order). -/
lemma pairwise_collectOptimizations (lang : String) (lines : List String)
    (start : Nat) :
    (collectOptimizations lang lines start).Pairwise suggestionOrder := by
  induction lines generalizing start with
  | nil => exact List.Pairwise.nil
  | cons line rest ih =>
    unfold collectOptimizations
    rw [List.pairwise_append]
    refine ⟨pairwise_lineOptimizations lang line start, ih (start + 1), ?_⟩
    intro a ha b hb
    have ha' := line_number_of_mem_lineOptimizations lang line start a ha
    rcases (mem_collectOptimizations lang rest (start + 1) b).1 hb with
      ⟨k, l, _, hbl⟩
    have hb' := line_number_of_mem_lineOptimizations lang l (start + 1 + k) b hbl
    exact Or.inl (by omega)

/-- The `rust` language id matches neither per-line branch. -/
lemma lineOptimizations_rust (line : String) (idx : Nat) :
    lineOptimizations "rust" line idx = [] := by
  unfold lineOptimizations
  rw [if_neg (by decide), if_neg (by decide)]
  exact List.nil_append []

/-- A `rust` document collects no optimizations at all. -/
lemma collectOptimizations_rust (lines : List String) (start : Nat) :
    collectOptimizations "rust" lines start = [] := by
  induction lines generalizing start with
  | nil => rfl
  | cons line rest ih =>
    unfold collectOptimizations
    rw [lineOptimizations_rust, ih (start + 1)]
    exact List.nil_append []

/-- Thresholds outside the unit interval filter the built-in scores exactly as
their clamped value does, because every score lies strictly between 0 and 1. -/
lemma le_iff_clampUnit_le (t c : ℚ) (h0 : 0 < c) (h1 : c < 1) :
    t ≤ c ↔ clampUnit t ≤ c := by
  unfold clampUnit
  constructor
  · intro h
    exact max_le h0.le (le_trans (min_le_right 1 t) h)
  · intro h
    have hm : min 1 t ≤ c := le_trans (le_max_right 0 _) h
    rcases le_total t 1 with ht | ht
    · rwa [min_eq_right ht] at hm
    · rw [min_eq_left ht] at hm
      exact absurd (lt_of_lt_of_le h1 hm) (lt_irrefl c)

/-- Confidence values survive the collection loop unchanged. -/
lemma confidence_of_mem_collect (lang : String) (lines : List String)
    (start : Nat) (opt : Optimization)
    (h : opt ∈ collectOptimizations lang lines start) :
    opt.confidence = conf07 ∨ opt.confidence = conf08 ∨
      opt.confidence = conf09 := by
  rcases (mem_collectOptimizations lang lines start opt).1 h with ⟨k, l, _, hl⟩
  exact confidence_of_mem_lineOptimizations lang l (start + k) opt hl

/-- C1: for the JavaScript input `let userName = "John";` newline
`console.log("Debug:", userName);` under the default configuration
(threshold 0.6), `simulateRustAnalysis` returns exactly two suggestions:
line 1 rule `use-const` confidence 0.8, then line 2 rule `no-console`
confidence 0.9, in ascending line order. -/
theorem scenarioA_two_suggestions :
    ∃ s1 s2,
      simulateRustAnalysis
          ⟨"javascript",
            "let userName = \"John\";\nconsole.log(\"Debug:\", userName);"⟩
          defaultConfiguration = [s1, s2] ∧
        s1.rule_name = "use-const" ∧ s1.line_number = 1 ∧
        s1.confidence = 0.8 ∧
        s2.rule_name = "no-console" ∧ s2.line_number = 2 ∧
        s2.confidence = 0.9 ∧ s1.line_number < s2.line_number :=
  ⟨useConstOpt "let userName = \"John\";" 0,
    noConsoleOpt "console.log(\"Debug:\", userName);" 1,
    by decide, rfl, rfl, conf08_eq, rfl, rfl, conf09_eq, by decide⟩

/-- C2 (code bug): `simulateRustAnalysis` never consults the configuration's
`enabledRules` map — its output is invariant under any change to it — so in
particular the `use-const` suggestion still appears when the configuration
disables `use-const`, contradicting the documented disable-implies-absence
property. -/
theorem enabledRules_have_no_effect :
    (∀ (doc : Document) (mc : Option ℚ) (er er' : String → Option Bool),
        simulateRustAnalysis doc ⟨mc, er⟩ =
          simulateRustAnalysis doc ⟨mc, er'⟩) ∧
      useConstOpt "let userName = \"John\";" 0 ∈
        simulateRustAnalysis
          ⟨"javascript",
            "let userName = \"John\";\nconsole.log(\"Debug:\", userName);"⟩
          ⟨none, fun r => if r = "use-const" then some false else none⟩ :=
  ⟨fun _ _ _ _ => rfl, by decide⟩

/-- C3 (code bug): the analysis has no Rust rules at all — every Rust
document yields the empty suggestion list, although `isSupported` accepts
`rust` and the documentation promises `.clone()` and debug-print macro
detection. -/
theorem rust_analysis_always_empty :
    (∀ (text : String) (cfg : Configuration),
        simulateRustAnalysis ⟨"rust", text⟩ cfg = []) ∧
      isSupported "rust" = true ∧
      simulateRustAnalysis
          ⟨"rust", "let x = data.clone();\nprintln!(\"debug value\");"⟩
          defaultConfiguration = [] := by
  refine ⟨?_, by decide, by decide⟩
  intro text cfg
  have hc : collectOptimizations "rust" (jsSplitNewline text) 0 = [] :=
    collectOptimizations_rust _ _
  simp [simulateRustAnalysis, hc]

/-- C4 counterexample: in `let x = 1;` newline `x = 2;` the variable `x` is
reassigned on line 2, yet the analysis still emits a `use-const` suggestion
for the declaration on line 1. -/
theorem useConst_fires_despite_reassignment :
    simulateRustAnalysis ⟨"javascript", "let x = 1;\nx = 2;"⟩
        defaultConfiguration = [useConstOpt "let x = 1;" 0] ∧
      (useConstOpt "let x = 1;" 0).rule_name = "use-const" ∧
      (useConstOpt "let x = 1;" 0).line_number = 1 := by
  refine ⟨by decide, rfl, rfl⟩

/-- C4 amended: the `use-const` rule is purely line-local — under the default
threshold a JavaScript line receives a `use-const` suggestion iff it contains
`let ` and `=` but not `let i`, regardless of reassignments on other lines. -/
theorem useConst_line_local_iff (text : String) (er : String → Option Bool)
    (k : Nat) (l : String)
    (hl : (jsSplitNewline text)[k]? = some l) :
    (∃ opt ∈ simulateRustAnalysis ⟨"javascript", text⟩ ⟨none, er⟩,
        opt.rule_name = "use-const" ∧ opt.line_number = k + 1) ↔
      (jsIncludes l "let " = true ∧ jsIncludes l "=" = true ∧
        jsIncludes l "let i" = false) := by
  constructor
  · rintro ⟨opt, hmem, hr, hn⟩
    have hm := ((mem_simulateRustAnalysis _ _ _).1 hmem).1
    rcases (mem_collectOptimizations _ _ _ _).1 hm with ⟨k', l', hl', hline⟩
    have hnum := line_number_of_mem_lineOptimizations _ _ _ _ hline
    have hkk : k = k' := by omega
    subst hkk
    have hl2 : (jsSplitNewline text)[k]? = some l' := hl'
    rw [hl] at hl2
    injection hl2 with hll
    subst hll
    exact (useConst_cond_of_mem _ _ _ _ hline hr).2
  · rintro ⟨h1, h2, h3⟩
    refine ⟨useConstOpt l k, ?_, rfl, rfl⟩
    refine (mem_simulateRustAnalysis _ _ _).2 ⟨?_, ?_⟩
    · refine (mem_collectOptimizations _ _ _ _).2 ⟨k, l, hl, ?_⟩
      rw [Nat.zero_add]
      exact useConst_mem_of_cond "javascript" l k (by decide) h1 h2 h3
    · exact (by decide : conf06 ≤ conf08)

/-- Witness for the amended C4 theorem at a concrete one-line input. -/
theorem useConst_line_local_iff_witness :
    (∃ opt ∈ simulateRustAnalysis ⟨"javascript", "let a = 1;"⟩
        ⟨none, fun _ => none⟩,
        opt.rule_name = "use-const" ∧ opt.line_number = 0 + 1) ↔
      (jsIncludes "let a = 1;" "let " = true ∧
        jsIncludes "let a = 1;" "=" = true ∧
        jsIncludes "let a = 1;" "let i" = false) :=
  useConst_line_local_iff "let a = 1;" (fun _ => none) 0 "let a = 1;"
    (by decide)

/-- C5: raising the threshold never adds a suggestion — the output under a
higher `minimum_confidence` is contained in the output under a lower one —
and a collected suggestion is kept iff its confidence is at least the
threshold. -/
theorem threshold_filter_monotone (doc : Document)
    (er : String → Option Bool) (t1 t2 : ℚ) (opt : Optimization)
    (h : t1 ≤ t2) :
    (opt ∈ simulateRustAnalysis doc ⟨some t2, er⟩ →
        opt ∈ simulateRustAnalysis doc ⟨some t1, er⟩) ∧
      (opt ∈ simulateRustAnalysis doc ⟨some t2, er⟩ ↔
        opt ∈ collectOptimizations doc.languageId (jsSplitNewline doc.text) 0 ∧
          t2 ≤ opt.confidence) := by
  have h2 := mem_simulateRustAnalysis doc ⟨some t2, er⟩ opt
  have h1 := mem_simulateRustAnalysis doc ⟨some t1, er⟩ opt
  simp only [Option.getD_some] at h1 h2
  refine ⟨fun hm => ?_, h2⟩
  have hc := h2.1 hm
  exact h1.2 ⟨hc.1, le_trans h hc.2⟩

/-- Witness for C5 at Scenario A with thresholds 0.6 and 0.9. -/
theorem threshold_filter_monotone_witness :
    noConsoleOpt "console.log(\"Debug:\", userName);" 1 ∈
      simulateRustAnalysis
        ⟨"javascript",
          "let userName = \"John\";\nconsole.log(\"Debug:\", userName);"⟩
        ⟨some conf06, fun _ => none⟩ :=
  (threshold_filter_monotone
    ⟨"javascript",
      "let userName = \"John\";\nconsole.log(\"Debug:\", userName);"⟩
    (fun _ => none) conf06 conf09
    (noConsoleOpt "console.log(\"Debug:\", userName);" 1)
    (by decide)).1 (by decide)

/-- C6: an out-of-range threshold cannot change the result relative to its
clamped value — filtering with any `t` equals filtering with
`max 0 (min 1 t)`, because every built-in confidence lies strictly inside the
unit interval — and the analysis is total either way. -/
theorem threshold_clamped_equivalent (doc : Document)
    (er : String → Option Bool) (t : ℚ) :
    simulateRustAnalysis doc ⟨some t, er⟩ =
      simulateRustAnalysis doc ⟨some (clampUnit t), er⟩ := by
  simp only [simulateRustAnalysis, Option.getD_some]
  apply List.filter_congr
  intro opt hm
  rcases confidence_of_mem_collect _ _ _ _ hm with hc | hc | hc <;>
    rw [hc] <;>
    exact decide_eq_decide.2
      (le_iff_clampUnit_le t _ (by decide) (by decide))

/-- C7: the returned sequence is strictly ordered by line number with the
registration order of the rules breaking ties, and the analysis is a pure
function of its inputs, so identical inputs give identical output. -/
theorem output_ordered_and_deterministic (doc : Document)
    (cfg : Configuration) :
    (simulateRustAnalysis doc cfg).Pairwise suggestionOrder ∧
      simulateRustAnalysis doc cfg = simulateRustAnalysis doc cfg := by
  refine ⟨?_, rfl⟩
  exact List.Pairwise.sublist (List.filter_sublist _)
    (pairwise_collectOptimizations doc.languageId (jsSplitNewline doc.text) 0)

/-- C8: every returned suggestion points at an existing 1-based line of the
split input, records that line's trimmed text as `original_code`, and its
confidence lies in the unit interval. -/
theorem suggestion_invariants (doc : Document) (cfg : Configuration)
    (opt : Optimization) (h : opt ∈ simulateRustAnalysis doc cfg) :
    1 ≤ opt.line_number ∧
      opt.line_number ≤ (jsSplitNewline doc.text).length ∧
      ((jsSplitNewline doc.text)[opt.line_number - 1]?).map jsTrim =
        some opt.original_code ∧
      0 ≤ opt.confidence ∧ opt.confidence ≤ 1 := by
  have hm := ((mem_simulateRustAnalysis doc cfg opt).1 h).1
  rcases (mem_collectOptimizations _ _ _ _).1 hm with ⟨k, l, hl, hline⟩
  have hn := line_number_of_mem_lineOptimizations _ _ _ _ hline
  have ho := original_code_of_mem_lineOptimizations _ _ _ _ hline
  have hk : k < (jsSplitNewline doc.text).length := by
    by_contra hbig
    rw [List.getElem?_eq_none (le_of_not_lt hbig)] at hl
    exact Option.noConfusion hl
  refine ⟨by omega, by omega, ?_, ?_⟩
  · have hi : opt.line_number - 1 = k := by omega
    rw [hi, hl, Option.map_some']
    exact congrArg some ho.symm
  · rcases confidence_of_mem_lineOptimizations _ _ _ _ hline with hc | hc | hc <;>
      rw [hc] <;>
      exact ⟨by decide, by decide⟩

/-- Witness for C8 at a concrete one-line JavaScript document. -/
theorem suggestion_invariants_witness :
    1 ≤ (useConstOpt "let a = 1;" 0).line_number ∧
      (useConstOpt "let a = 1;" 0).line_number ≤
        (jsSplitNewline "let a = 1;").length ∧
      ((jsSplitNewline
          "let a = 1;")[(useConstOpt "let a = 1;" 0).line_number - 1]?).map
          jsTrim = some (useConstOpt "let a = 1;" 0).original_code ∧
      0 ≤ (useConstOpt "let a = 1;" 0).confidence ∧
      (useConstOpt "let a = 1;" 0).confidence ≤ 1 :=
  suggestion_invariants ⟨"javascript", "let a = 1;"⟩ defaultConfiguration
    (useConstOpt "let a = 1;" 0) (by decide)

/-- C9: a line containing the substring `let i` never receives a `use-const`
suggestion, while an otherwise-identical binding whose name does not start
with `i` does: on the three-line input only `let xndex = 0;` is flagged. -/
theorem let_i_suppression (doc : Document) (cfg : Configuration) (k : Nat)
    (l : String) (opt : Optimization)
    (hl : (jsSplitNewline doc.text)[k]? = some l)
    (hi : jsIncludes l "let i" = true)
    (h : opt ∈ simulateRustAnalysis doc cfg) :
    ¬(opt.rule_name = "use-const" ∧ opt.line_number = k + 1) ∧
      simulateRustAnalysis
          ⟨"javascript", "let index = 0;\nlet items = [];\nlet xndex = 0;"⟩
          defaultConfiguration = [useConstOpt "let xndex = 0;" 2] := by
  refine ⟨?_, by decide⟩
  rintro ⟨hr, hn⟩
  have hm := ((mem_simulateRustAnalysis doc cfg opt).1 h).1
  rcases (mem_collectOptimizations _ _ _ _).1 hm with ⟨k', l', hl', hline⟩
  have hnum := line_number_of_mem_lineOptimizations _ _ _ _ hline
  have hkk : k' = k := by omega
  subst hkk
  rw [hl] at hl'
  injection hl' with hll
  subst hll
  have hc := useConst_cond_of_mem _ _ _ _ hline hr
  rw [hc.2.2.2] at hi
  exact Bool.noConfusion hi

/-- Witness for C9: the first line of a concrete document contains `let i`,
and the suggestion the document does produce is not a `use-const` on it. -/
theorem let_i_suppression_witness :
    ¬((noConsoleOpt "console.log(x);" 1).rule_name = "use-const" ∧
        (noConsoleOpt "console.log(x);" 1).line_number = 0 + 1) ∧
      simulateRustAnalysis
          ⟨"javascript", "let index = 0;\nlet items = [];\nlet xndex = 0;"⟩
          defaultConfiguration = [useConstOpt "let xndex = 0;" 2] :=
  let_i_suppression ⟨"javascript", "let index = 0;\nconsole.log(x);"⟩
    defaultConfiguration 0 "let index = 0;" (noConsoleOpt "console.log(x);" 1)
    (by decide) (by decide) (by decide)

/-- C10: every suggestion produced for a TypeScript document carries the
fixed language tag `JavaScript`, not the document's own language. -/
theorem typescript_suggestions_language_javascript (text : String)
    (cfg : Configuration) (opt : Optimization)
    (h : opt ∈ simulateRustAnalysis ⟨"typescript", text⟩ cfg) :
    opt.language = "JavaScript" := by
  have hm := ((mem_simulateRustAnalysis _ _ _).1 h).1
  rcases (mem_collectOptimizations _ _ _ _).1 hm with ⟨k, l, _, hline⟩
  rcases mem_lineOptimizations_cases _ _ _ _ hline with ⟨_, hc | hc⟩ | ⟨hpy, _⟩
  · subst hc; rfl
  · subst hc; rfl
  · have hps : ("typescript" : String) = "python" := hpy
    exact absurd hps (by decide)

/-- Witness for C10 at a concrete TypeScript document. -/
theorem typescript_suggestions_language_javascript_witness :
    (useConstOpt "let a = 1;" 0).language = "JavaScript" :=
  typescript_suggestions_language_javascript "let a = 1;"
    defaultConfiguration (useConstOpt "let a = 1;" 0) (by decide)

end CodeOptimizer
